import Mathlib

/-!
Shallow embedding of the SecureMint batch engine
(`src/assets/python-engine/bulk_operations.py`, `securemint_api.py`,
`securemint_cli.py`) and proofs about its validation, invariant gating,
batch execution and reporting behaviour.

Python exceptions raised by remote ledger reads are modelled as `Option`
(`none` = the read raised and the surrounding `try/except` fires); the
remote write endpoint is modelled as an environment function returning a
`WriteResp` per (request index, attempt).
-/

namespace SecureMint

/-- A loaded input row, as produced by `BulkOperator.load_csv` / `load_json`:
a loose record with `recipient`, optional `holder` and integer `amount`.
An absent string key is modelled as `""` (both are falsy in Python). -/
structure Req where
  recipient : String
  holder : String
  amount : Int
  deriving DecidableEq, Repr

/-- Hex-digit test used by `int(address, 16)` in `_is_valid_address`. -/
def isHexChar (c : Char) : Bool :=
  c.isDigit || ('a' ≤ c && c ≤ 'f') || ('A' ≤ c && c ≤ 'F')

/-- `BulkOperator._is_valid_address`: non-empty, starts with `"0x"`,
length 42, and parses as a base-16 integer.  (Python's `int(_, 16)` also
tolerates underscore separators and trailing whitespace; no theorem below
depends on those corner cases.) -/
def is_valid_address (address : String) : Bool :=
  match address.toList with
  | '0' :: 'x' :: rest => decide (rest.length = 40) && rest.all isHexChar
  | _ => false

/-- Per-row and aggregate validation errors, one constructor per message
template appended to `errors` in `validate_mint_batch` / `validate_burn_batch`,
carrying the interpolated data. -/
inductive VError where
  | missingRecipient (row : Nat)
  | missingHolder (row : Nat)
  | invalidAddress (row : Nat) (addr : String)
  | invalidAmount (row : Nat) (amount : Int)
  | insufficientBalance (row : Nat) (holder : String) (has needs : Int)
  | exceedsBacking (deficit supply backing total : Int)
  | exceedsEpochCapacity (remaining requested : Int)
  deriving DecidableEq, Repr

/-- Warnings appended to `warnings`, one constructor per message template. -/
inductive VWarning where
  | backingLookupFailed
  | rateLimitLookupFailed
  | balanceLookupFailed (row : Nat)
  deriving DecidableEq, Repr

/-- Read-only ledger state visible to the validator.  `none` means the
corresponding remote read raises.  `policy = none` means
`contracts.get("policy")` returns no handle; `policy = some none` means the
handle exists but the epoch reads raise; `policy = some (some (m, c))`
gives `(epochMintedAmount, epochCapacity)`. -/
structure Ledger where
  backing : Option Int
  totalSupply : Option Int
  balance : String → Option Int
  policy : Option (Option (Int × Int))

/-- The dict returned by `validate_mint_batch` / `validate_burn_batch`. -/
structure ValidationResult where
  valid : Bool
  totalRequests : Nat
  totalAmount : Int
  errors : List VError
  warnings : List VWarning
  deriving DecidableEq, Repr

/-- `req.get("holder") or req.get("recipient")` in `validate_burn_batch`. -/
def holderOf (r : Req) : String :=
  if r.holder = "" then r.recipient else r.holder

/-- Per-row loop of `validate_mint_batch` starting at row index `i`:
returns the row errors (in emission order) and the accumulated
`total_amount`.  A missing recipient skips the row (`continue`); an invalid
address adds an error but does NOT skip the amount accounting. -/
def mint_row_pass : List Req → Nat → List VError × Int
  | [], _ => ([], 0)
  | r :: rs, i =>
    if r.recipient = "" then
      let (es, t) := mint_row_pass rs (i + 1)
      (.missingRecipient i :: es, t)
    else
      let addrErrs : List VError :=
        if is_valid_address r.recipient then [] else [.invalidAddress i r.recipient]
      if r.amount ≤ 0 then
        let (es, t) := mint_row_pass rs (i + 1)
        (addrErrs ++ .invalidAmount i r.amount :: es, t)
      else
        let (es, t) := mint_row_pass rs (i + 1)
        (addrErrs ++ es, t + r.amount)

/-- Aggregate backing check of `validate_mint_batch`: one `try` block that
reads backing then total supply; a raise in either read downgrades to the
single warning `Could not verify backing`. -/
def mint_backing_check (l : Ledger) (totalAmount : Int) : List VError × List VWarning :=
  match l.backing with
  | none => ([], [.backingLookupFailed])
  | some b =>
    match l.totalSupply with
    | none => ([], [.backingLookupFailed])
    | some s =>
      if s + totalAmount > b then
        ([.exceedsBacking (s + totalAmount - b) s b totalAmount], [])
      else ([], [])

/-- Rate-limit check of `validate_mint_batch`: silently skipped when no
policy handle is configured; a raise in the epoch reads downgrades to the
warning `Could not verify rate limits`. -/
def mint_rate_check (l : Ledger) (totalAmount : Int) : List VError × List VWarning :=
  match l.policy with
  | none => ([], [])
  | some none => ([], [.rateLimitLookupFailed])
  | some (some (epochMinted, epochCapacity)) =>
    if totalAmount > epochCapacity - epochMinted then
      ([.exceedsEpochCapacity (epochCapacity - epochMinted) totalAmount], [])
    else ([], [])

/-- `BulkOperator.validate_mint_batch`. -/
def validate_mint_batch (l : Ledger) (requests : List Req) : ValidationResult :=
  let (rowErrs, totalAmount) := mint_row_pass requests 0
  let (backErrs, backWarns) := mint_backing_check l totalAmount
  let (rateErrs, rateWarns) := mint_rate_check l totalAmount
  let errors := rowErrs ++ backErrs ++ rateErrs
  { valid := errors.isEmpty
    totalRequests := requests.length
    totalAmount := totalAmount
    errors := errors
    warnings := backWarns ++ rateWarns }

/-- Per-row loop of `validate_burn_batch` starting at row index `i`:
returns (errors, warnings, total_amount).  A non-positive amount skips the
balance check (`continue`); an insufficient balance adds an error but the
amount is still added to `total_amount`; a raised balance lookup downgrades
to a warning. -/
def burn_row_pass (l : Ledger) : List Req → Nat → List VError × List VWarning × Int
  | [], _ => ([], [], 0)
  | r :: rs, i =>
    let h := holderOf r
    if h = "" then
      let (es, ws, t) := burn_row_pass l rs (i + 1)
      (.missingHolder i :: es, ws, t)
    else
      let addrErrs : List VError :=
        if is_valid_address h then [] else [.invalidAddress i h]
      if r.amount ≤ 0 then
        let (es, ws, t) := burn_row_pass l rs (i + 1)
        (addrErrs ++ .invalidAmount i r.amount :: es, ws, t)
      else
        match l.balance h with
        | some b =>
          let (es, ws, t) := burn_row_pass l rs (i + 1)
          if b < r.amount then
            (addrErrs ++ .insufficientBalance i h b r.amount :: es, ws, t + r.amount)
          else
            (addrErrs ++ es, ws, t + r.amount)
        | none =>
          let (es, ws, t) := burn_row_pass l rs (i + 1)
          (addrErrs ++ es, .balanceLookupFailed i :: ws, t + r.amount)

/-- `BulkOperator.validate_burn_batch` (rows only; it has no aggregate
checks). -/
def validate_burn_batch (l : Ledger) (requests : List Req) : ValidationResult :=
  let (errs, warns, totalAmount) := burn_row_pass l requests 0
  { valid := errs.isEmpty
    totalRequests := requests.length
    totalAmount := totalAmount
    errors := errs
    warnings := warns }

/-- One outcome of a call to the remote write endpoint (`api.mint` /
`api.burn`): a receipt whose `status` is `"success"`, a receipt with any
other status, or a raised exception with its message. -/
inductive WriteResp where
  | receiptSuccess (txHash : String) (gasUsed : Nat)
  | receiptFailed
  | exn (msg : String)
  deriving DecidableEq, Repr

/-- Result of one request's retry loop: the successful receipt data (if
any), the `last_error` variable, and the backoff sleeps performed (in time
units, in order). -/
structure RetryOutcome where
  success : Option (String × Nat)
  lastError : Option String
  sleeps : List Nat
  deriving DecidableEq, Repr

/-- Inner `for attempt in range(max_retries)` loop of `execute_mint_batch`
for one request.  `resp a` is what the write returns on attempt `a`.
A non-success receipt sets `last_error` and retries immediately; only a
raised exception sleeps `2 ^ attempt` before the next attempt (the sleep
runs even after the final attempt). -/
def mint_retry_loop (resp : Nat → WriteResp) :
    Nat → Nat → Option String → List Nat → RetryOutcome
  | _, 0, lastError, sleeps => ⟨none, lastError, sleeps⟩
  | attempt, remaining + 1, lastError, sleeps =>
    match resp attempt with
    | .receiptSuccess h g => ⟨some (h, g), lastError, sleeps⟩
    | .receiptFailed =>
      mint_retry_loop resp (attempt + 1) remaining
        (some "Transaction failed on-chain") sleeps
    | .exn msg =>
      mint_retry_loop resp (attempt + 1) remaining (some msg)
        (sleeps ++ [2 ^ attempt])

/-- Inner retry loop of `execute_burn_batch`: identical except that a
non-success receipt leaves `last_error` untouched (the Python loop has no
`else` branch there). -/
def burn_retry_loop (resp : Nat → WriteResp) :
    Nat → Nat → Option String → List Nat → RetryOutcome
  | _, 0, lastError, sleeps => ⟨none, lastError, sleeps⟩
  | attempt, remaining + 1, lastError, sleeps =>
    match resp attempt with
    | .receiptSuccess h g => ⟨some (h, g), lastError, sleeps⟩
    | .receiptFailed => burn_retry_loop resp (attempt + 1) remaining lastError sleeps
    | .exn msg =>
      burn_retry_loop resp (attempt + 1) remaining (some msg)
        (sleeps ++ [2 ^ attempt])

/-- Entry appended to `result.transactions` on a successful mint. -/
structure TxRecord where
  recipient : String
  amount : Int
  txHash : String
  gasUsed : Nat
  deriving DecidableEq, Repr

/-- Entry appended to `result.errors` in `execute_mint_batch`:
`{recipient, amount, error, attempts}`.  Note: there is NO row-index
field. -/
structure MintErr where
  recipient : String
  amount : Int
  error : Option String
  attempts : Nat
  deriving DecidableEq, Repr

/-- Entry appended to `result.transactions` on a successful burn:
`{amount, tx_hash, status}` (no gas field). -/
structure BurnTxRecord where
  amount : Int
  txHash : String
  deriving DecidableEq, Repr

/-- Entry appended to `result.errors` in `execute_burn_batch`:
`{amount, error}` only — no holder, no attempts, no row index. -/
structure BurnErr where
  amount : Int
  error : Option String
  deriving DecidableEq, Repr

/-- The report dict returned by `execute_mint_batch` (wall-clock duration
is replaced by the ordered trace of sleeps the run performed). -/
structure MintReport where
  successCount : Nat
  failureCount : Nat
  totalAmount : Int
  totalGasUsed : Nat
  transactions : List TxRecord
  errors : List MintErr
  sleeps : List Nat
  deriving DecidableEq, Repr

/-- The report dict returned by `execute_burn_batch`. -/
structure BurnReport where
  successCount : Nat
  failureCount : Nat
  totalAmount : Int
  totalGasUsed : Nat
  transactions : List BurnTxRecord
  errors : List BurnErr
  sleeps : List Nat
  deriving DecidableEq, Repr

/-- Mint executor state: the report under construction plus the global
index of the next request (used to address the write environment). -/
structure MintExecState where
  report : MintReport
  idx : Nat
  deriving DecidableEq, Repr

def emptyMintReport : MintReport := ⟨0, 0, 0, 0, [], [], []⟩

structure BurnExecState where
  report : BurnReport
  idx : Nat
  deriving DecidableEq, Repr

def emptyBurnReport : BurnReport := ⟨0, 0, 0, 0, [], [], []⟩

/-- Fuel-indexed worker for `chunkList`; the fuel is the list length, so
the recursion is structural and kernel-reducible. -/
def chunkGo (n : Nat) : Nat → List α → List (List α)
  | _, [] => []
  | 0, _ :: _ => []
  | fuel + 1, x :: xs => (x :: xs).take n :: chunkGo n fuel ((x :: xs).drop n)

/-- `[requests[i:i + batch_size] for i in range(0, len(requests), batch_size)]`.
For `n = 0` Python's `range` raises; that degenerate case is modelled as no
batches (every theorem below assumes `0 < n`). -/
def chunkList (n : Nat) (l : List α) : List (List α) :=
  if n = 0 then [] else chunkGo n l.length l

/-- Body of `for req in batch` in `execute_mint_batch`: run the retry loop
for one request against write environment `env` and fold the outcome into
the state. -/
def process_mint_req (env : Nat → Nat → WriteResp) (maxRetries : Nat)
    (s : MintExecState) (req : Req) : MintExecState :=
  let out := mint_retry_loop (env s.idx) 0 maxRetries none []
  let r := { s.report with sleeps := s.report.sleeps ++ out.sleeps }
  match out.success with
  | some (h, g) =>
    { report :=
        { r with
          successCount := r.successCount + 1
          totalAmount := r.totalAmount + req.amount
          totalGasUsed := r.totalGasUsed + g
          transactions := r.transactions ++ [⟨req.recipient, req.amount, h, g⟩] }
      idx := s.idx + 1 }
  | none =>
    { report :=
        { r with
          failureCount := r.failureCount + 1
          errors := r.errors ++ [⟨req.recipient, req.amount, out.lastError, maxRetries⟩] }
      idx := s.idx + 1 }

/-- Outer batch loop of `execute_mint_batch`: process each batch in order
and sleep 1 time unit between batches (`if batch_idx < len(batches) - 1`). -/
def exec_mint_chunks (env : Nat → Nat → WriteResp) (maxRetries : Nat) :
    List (List Req) → MintExecState → MintExecState
  | [], s => s
  | b :: rest, s =>
    let s' := b.foldl (process_mint_req env maxRetries) s
    let s'' :=
      if rest.isEmpty then s'
      else { s' with report := { s'.report with sleeps := s'.report.sleeps ++ [1] } }
    exec_mint_chunks env maxRetries rest s''

/-- `BulkOperator.execute_mint_batch`.  `env i a` is the write response for
the `i`-th request of the run on attempt `a`. -/
def execute_mint_batch (env : Nat → Nat → WriteResp) (requests : List Req)
    (batchSize maxRetries : Nat) : MintReport :=
  (exec_mint_chunks env maxRetries (chunkList batchSize requests)
      ⟨emptyMintReport, 0⟩).report

/-- Body of `for req in batch` in `execute_burn_batch`. -/
def process_burn_req (env : Nat → Nat → WriteResp) (maxRetries : Nat)
    (s : BurnExecState) (req : Req) : BurnExecState :=
  let out := burn_retry_loop (env s.idx) 0 maxRetries none []
  let r := { s.report with sleeps := s.report.sleeps ++ out.sleeps }
  match out.success with
  | some (h, g) =>
    { report :=
        { r with
          successCount := r.successCount + 1
          totalAmount := r.totalAmount + req.amount
          totalGasUsed := r.totalGasUsed + g
          transactions := r.transactions ++ [⟨req.amount, h⟩] }
      idx := s.idx + 1 }
  | none =>
    { report :=
        { r with
          failureCount := r.failureCount + 1
          errors := r.errors ++ [⟨req.amount, out.lastError⟩] }
      idx := s.idx + 1 }

/-- Outer batch loop of `execute_burn_batch` (it has no pacing sleep
between batches). -/
def exec_burn_chunks (env : Nat → Nat → WriteResp) (maxRetries : Nat) :
    List (List Req) → BurnExecState → BurnExecState
  | [], s => s
  | b :: rest, s =>
    exec_burn_chunks env maxRetries rest (b.foldl (process_burn_req env maxRetries) s)

/-- `BulkOperator.execute_burn_batch`. -/
def execute_burn_batch (env : Nat → Nat → WriteResp) (requests : List Req)
    (batchSize maxRetries : Nat) : BurnReport :=
  (exec_burn_chunks env maxRetries (chunkList batchSize requests)
      ⟨emptyBurnReport, 0⟩).report

/-- One outcome of `api.simulate_transaction` for a request (that call
catches internally and returns a dict), or `exn` for an exception raised
earlier in the request's `try` block (e.g. checksum/encode failure). -/
inductive SimResp where
  | success (gasUsed : Nat)
  | failure (error : String)
  | exn (msg : String)
  deriving DecidableEq, Repr

/-- Entry appended to `result.transactions` in `simulate_mint_batch`. -/
structure SimTxRecord where
  recipient : String
  amount : Int
  gasEstimate : Nat
  deriving DecidableEq, Repr

/-- Entry appended to `result.errors` in `simulate_mint_batch` /
`simulate_burn_batch`: `{recipient | holder, amount, error}`. -/
structure SimErr where
  address : String
  amount : Int
  error : String
  deriving DecidableEq, Repr

/-- The report dict returned by `simulate_mint_batch` /
`simulate_burn_batch`. -/
structure SimReport where
  successCount : Nat
  failureCount : Nat
  totalAmount : Int
  totalGasUsed : Nat
  transactions : List SimTxRecord
  errors : List SimErr
  deriving DecidableEq, Repr

/-- Body of the request loop in `simulate_mint_batch`: a missing policy
handle raises `ValueError("Policy contract not configured")`, caught as a
failure; otherwise the simulation outcome for request index `i` decides. -/
def process_sim_mint (policyConfigured : Bool) (env : Nat → SimResp)
    (acc : SimReport × Nat) (req : Req) : SimReport × Nat :=
  let (r, i) := acc
  if !policyConfigured then
    ({ r with
        failureCount := r.failureCount + 1
        errors := r.errors ++ [⟨req.recipient, req.amount, "Policy contract not configured"⟩] },
      i + 1)
  else
    match env i with
    | .success g =>
      ({ r with
          successCount := r.successCount + 1
          totalAmount := r.totalAmount + req.amount
          totalGasUsed := r.totalGasUsed + g
          transactions := r.transactions ++ [⟨req.recipient, req.amount, g⟩] },
        i + 1)
    | .failure e =>
      ({ r with
          failureCount := r.failureCount + 1
          errors := r.errors ++ [⟨req.recipient, req.amount, e⟩] },
        i + 1)
    | .exn m =>
      ({ r with
          failureCount := r.failureCount + 1
          errors := r.errors ++ [⟨req.recipient, req.amount, m⟩] },
        i + 1)

/-- `BulkOperator.simulate_mint_batch`. -/
def simulate_mint_batch (policyConfigured : Bool) (env : Nat → SimResp)
    (requests : List Req) : SimReport :=
  (requests.foldl (process_sim_mint policyConfigured env) (⟨0, 0, 0, 0, [], []⟩, 0)).1

/-- Body of the request loop in `simulate_burn_batch`: like the mint case
but gated on the token handle, recording the holder in errors and
appending no transaction entries on success. -/
def process_sim_burn (tokenConfigured : Bool) (env : Nat → SimResp)
    (acc : SimReport × Nat) (req : Req) : SimReport × Nat :=
  let (r, i) := acc
  if !tokenConfigured then
    ({ r with
        failureCount := r.failureCount + 1
        errors := r.errors ++ [⟨req.holder, req.amount, "Token contract not configured"⟩] },
      i + 1)
  else
    match env i with
    | .success g =>
      ({ r with
          successCount := r.successCount + 1
          totalAmount := r.totalAmount + req.amount
          totalGasUsed := r.totalGasUsed + g },
        i + 1)
    | .failure e =>
      ({ r with
          failureCount := r.failureCount + 1
          errors := r.errors ++ [⟨req.holder, req.amount, e⟩] },
        i + 1)
    | .exn m =>
      ({ r with
          failureCount := r.failureCount + 1
          errors := r.errors ++ [⟨req.holder, req.amount, m⟩] },
        i + 1)

/-- `BulkOperator.simulate_burn_batch`. -/
def simulate_burn_batch (tokenConfigured : Bool) (env : Nat → SimResp)
    (requests : List Req) : SimReport :=
  (requests.foldl (process_sim_burn tokenConfigured env) (⟨0, 0, 0, 0, [], []⟩, 0)).1

/-- Configuration of the `SecureMintAPI` instance: which contract handles
exist and whether a signing account was configured. -/
structure ApiConfig where
  policyConfigured : Bool
  tokenConfigured : Bool
  accountConfigured : Bool
  deriving DecidableEq, Repr

/-- `SecureMintAPI.mint` as seen by the executor: a missing policy handle
or a missing account (`_build_tx_params`) raises a `ValueError` before any
chain interaction; otherwise the chain environment answers. -/
def api_mint (cfg : ApiConfig) (chain : Nat → Nat → WriteResp) (i a : Nat) : WriteResp :=
  if !cfg.policyConfigured then .exn "Policy contract not configured"
  else if !cfg.accountConfigured then
    .exn "No account configured - private key required for transactions"
  else chain i a

/-- `SecureMintAPI.burn` as seen by the executor. -/
def api_burn (cfg : ApiConfig) (chain : Nat → Nat → WriteResp) (i a : Nat) : WriteResp :=
  if !cfg.tokenConfigured then .exn "Token contract not configured"
  else if !cfg.accountConfigured then
    .exn "No account configured - private key required for transactions"
  else chain i a

/-- Ledger reads consumed by `SecureMintAPI.check_invariants`.  As in
`Ledger`, `none` models a raised read; the nested options distinguish an
absent contract handle (outer `none`, no result entry at all) from a
present handle whose reads raise (inner `none`, entry with `valid: False`). -/
structure InvariantEnv where
  totalSupply : Option Int
  backing : Option Int
  policyReads : Option (Option (Int × Int))
  oracleStale : Option Bool
  emergencyLevel : Option (Option Int)
  deriving DecidableEq, Repr

/-- One entry of the `results` dict of `check_invariants` (only the
`valid` flag matters to the gate). -/
structure InvEntry where
  valid : Bool
  deriving DecidableEq, Repr

/-- Return value of `check_invariants`: `all_valid` plus the per-invariant
entries.  `rateLimiting` / `emergencyPause` are `none` when the respective
contract handle is absent — in that case `results` has no such key and the
`all(...)` fold never sees it. -/
structure InvReport where
  allValid : Bool
  solvency : InvEntry
  rateLimiting : Option InvEntry
  oracleFreshness : InvEntry
  emergencyPause : Option InvEntry
  deriving DecidableEq, Repr

/-- `SecureMintAPI.check_invariants`. -/
def check_invariants (e : InvariantEnv) : InvReport :=
  let solvency : InvEntry :=
    match e.totalSupply, e.backing with
    | some s, some b => ⟨decide (s ≤ b)⟩
    | _, _ => ⟨false⟩
  let rateLimiting : Option InvEntry :=
    match e.policyReads with
    | none => none
    | some none => some ⟨false⟩
    | some (some (minted, capacity)) => some ⟨decide (minted ≤ capacity)⟩
  let oracleFreshness : InvEntry :=
    match e.oracleStale with
    | some stale => ⟨!stale⟩
    | none => ⟨false⟩
  let emergencyPause : Option InvEntry :=
    match e.emergencyLevel with
    | none => none
    | some none => some ⟨false⟩
    | some (some _) => some ⟨true⟩
  { allValid := solvency.valid && rateLimiting.all (·.valid)
      && oracleFreshness.valid && emergencyPause.all (·.valid)
    solvency := solvency
    rateLimiting := rateLimiting
    oracleFreshness := oracleFreshness
    emergencyPause := emergencyPause }

/-- The results payload the CLI hands to the caller: either a real
execution report or a dry-run simulation report. -/
inductive CLIMintReport where
  | real (r : MintReport)
  | dry (r : SimReport)
  deriving DecidableEq, Repr

inductive CLIBurnReport where
  | real (r : BurnReport)
  | dry (r : SimReport)
  deriving DecidableEq, Repr

/-- Observable outcome of one `SecureMintCLI.mint_batch` invocation:
the validation result, the invariant report if the gate was reached,
the final report if execution was reached, and the process exit code. -/
structure MintBatchRun where
  validation : ValidationResult
  invariants : Option InvReport
  report : Option CLIMintReport
  exitCode : Nat
  deriving DecidableEq, Repr

/-- `SecureMintCLI.mint_batch`: validate; on validation errors return 1
unless `--force`; check invariants; on `all_valid == False` return 1
unless `--force`; then simulate (`--dry-run`) or execute. -/
def mint_batch (force dryRun : Bool) (l : Ledger) (ie : InvariantEnv)
    (cfg : ApiConfig) (chain : Nat → Nat → WriteResp) (simEnv : Nat → SimResp)
    (requests : List Req) (batchSize maxRetries : Nat) : MintBatchRun :=
  let v := validate_mint_batch l requests
  if !v.errors.isEmpty && !force then
    ⟨v, none, none, 1⟩
  else
    let inv := check_invariants ie
    if !inv.allValid && !force then
      ⟨v, some inv, none, 1⟩
    else
      let rep : CLIMintReport :=
        if dryRun then .dry (simulate_mint_batch cfg.policyConfigured simEnv requests)
        else .real (execute_mint_batch (api_mint cfg chain) requests batchSize maxRetries)
      let failures :=
        match rep with
        | .real r => r.failureCount
        | .dry r => r.failureCount
      ⟨v, some inv, some rep, if failures = 0 then 0 else 1⟩

/-- `SecureMintCLI.burn_batch`: no validation, no invariant gate — it goes
straight to simulation (`--dry-run`) or execution (`max_retries` is left
at its default 3) and always returns 0. -/
def burn_batch (dryRun : Bool) (cfg : ApiConfig) (chain : Nat → Nat → WriteResp)
    (simEnv : Nat → SimResp) (requests : List Req) (batchSize : Nat) :
    CLIBurnReport × Nat :=
  if dryRun then (.dry (simulate_burn_batch cfg.tokenConfigured simEnv requests), 0)
  else (.real (execute_burn_batch (api_burn cfg chain) requests batchSize 3), 0)

/-! ### Concrete fixtures used by witnesses and counterexamples -/

def goodAddr : String := "0xaaaaaaaaaaaaaaaaaaaaaaaaaaaaaaaaaaaaaaaa"

def altAddr : String := "0xbbbbbbbbbbbbbbbbbbbbbbbbbbbbbbbbbbbbbbbb"

/-- A ledger where every read succeeds, backing is ample and no policy
contract is configured. -/
def okLedger : Ledger := ⟨some 2000000, some 0, fun _ => some 0, none⟩

/-- A ledger whose backing and total-supply reads raise and with no
policy handle: every aggregate check is unavailable. -/
def downLedger : Ledger := ⟨none, none, fun _ => some 0, none⟩

/-- A ledger where `goodAddr` holds balance 50. -/
def balanceLedger : Ledger := ⟨some 2000000, some 0, fun _ => some 50, none⟩

def qGood : Req := ⟨goodAddr, "", 1000000⟩

def qSmall : Req := ⟨goodAddr, "", 5⟩

def qAlt : Req := ⟨altAddr, "", 5⟩

/-- Invariant environment with a solvency violation (supply 100 > backing
50) and everything else healthy. -/
def invBad : InvariantEnv := ⟨some 100, some 50, none, some false, none⟩

/-- Invariant environment where every checked invariant holds. -/
def invGood : InvariantEnv := ⟨some 50, some 100, none, some false, none⟩

/-- All contracts and the signing account configured. -/
def cfgOk : ApiConfig := ⟨true, true, true⟩

/-- Policy contract not configured. -/
def cfgNoPolicy : ApiConfig := ⟨false, true, true⟩

/-- A chain that confirms every write on the first attempt. -/
def chainOk : Nat → Nat → WriteResp := fun _ _ => .receiptSuccess "0xhash" 21000

def simOk : Nat → SimResp := fun _ => .success 21000

/-! ### Helper lemmas -/

theorem chunkGo_flatten {α : Type} {n : Nat} (hn : 0 < n) :
    ∀ (fuel : Nat) (l : List α), l.length ≤ fuel → (chunkGo n fuel l).flatten = l := by
  intro fuel
  induction fuel with
  | zero =>
    intro l hl
    cases l with
    | nil => rfl
    | cons x xs => simp at hl
  | succ fuel ih =>
    intro l hl
    cases l with
    | nil => rfl
    | cons x xs =>
      have hdrop : ((x :: xs).drop n).length ≤ fuel := by
        rw [List.length_drop]
        simp only [List.length_cons] at hl ⊢
        omega
      simp only [chunkGo, List.flatten_cons]
      rw [ih _ hdrop, List.take_append_drop]

theorem chunkList_flatten {α : Type} {n : Nat} (hn : 0 < n) (l : List α) :
    (chunkList n l).flatten = l := by
  unfold chunkList
  rw [if_neg (Nat.pos_iff_ne_zero.mp hn)]
  exact chunkGo_flatten hn l.length l le_rfl

theorem process_mint_req_counts (env : Nat → Nat → WriteResp) (R : Nat)
    (s : MintExecState) (q : Req) :
    (process_mint_req env R s q).report.successCount
      + (process_mint_req env R s q).report.failureCount
      = s.report.successCount + s.report.failureCount + 1 := by
  unfold process_mint_req
  cases h : (mint_retry_loop (env s.idx) 0 R none []).success with
  | none => simp [h]; omega
  | some p => simp [h]; omega

theorem foldl_mint_counts (env : Nat → Nat → WriteResp) (R : Nat) :
    ∀ (b : List Req) (s : MintExecState),
      (b.foldl (process_mint_req env R) s).report.successCount
        + (b.foldl (process_mint_req env R) s).report.failureCount
        = s.report.successCount + s.report.failureCount + b.length := by
  intro b
  induction b with
  | nil => intro s; simp
  | cons q b ih =>
    intro s
    simp only [List.foldl_cons, List.length_cons]
    rw [ih]
    rw [process_mint_req_counts]
    omega

theorem exec_mint_chunks_counts (env : Nat → Nat → WriteResp) (R : Nat) :
    ∀ (cs : List (List Req)) (s : MintExecState),
      (exec_mint_chunks env R cs s).report.successCount
        + (exec_mint_chunks env R cs s).report.failureCount
        = s.report.successCount + s.report.failureCount + (cs.map List.length).sum := by
  intro cs
  induction cs with
  | nil => intro s; simp [exec_mint_chunks]
  | cons b rest ih =>
    intro s
    simp only [exec_mint_chunks, List.map_cons, List.sum_cons]
    by_cases h : rest.isEmpty
    · rw [if_pos h, ih, foldl_mint_counts]; omega
    · rw [if_neg h, ih]
      simp only
      rw [foldl_mint_counts]
      omega

theorem execute_mint_batch_counts (env : Nat → Nat → WriteResp)
    (requests : List Req) {batchSize : Nat} (maxRetries : Nat)
    (h : 0 < batchSize) :
    (execute_mint_batch env requests batchSize maxRetries).successCount
      + (execute_mint_batch env requests batchSize maxRetries).failureCount
      = requests.length := by
  unfold execute_mint_batch
  rw [exec_mint_chunks_counts]
  have : ((chunkList batchSize requests).map List.length).sum
      = (chunkList batchSize requests).flatten.length := (List.length_flatten _).symm
  rw [this, chunkList_flatten h]
  simp [emptyMintReport]

theorem process_burn_req_counts (env : Nat → Nat → WriteResp) (R : Nat)
    (s : BurnExecState) (q : Req) :
    (process_burn_req env R s q).report.successCount
      + (process_burn_req env R s q).report.failureCount
      = s.report.successCount + s.report.failureCount + 1 := by
  unfold process_burn_req
  cases h : (burn_retry_loop (env s.idx) 0 R none []).success with
  | none => simp [h]; omega
  | some p => simp [h]; omega

theorem foldl_burn_counts (env : Nat → Nat → WriteResp) (R : Nat) :
    ∀ (b : List Req) (s : BurnExecState),
      (b.foldl (process_burn_req env R) s).report.successCount
        + (b.foldl (process_burn_req env R) s).report.failureCount
        = s.report.successCount + s.report.failureCount + b.length := by
  intro b
  induction b with
  | nil => intro s; simp
  | cons q b ih =>
    intro s
    simp only [List.foldl_cons, List.length_cons]
    rw [ih, process_burn_req_counts]
    omega

theorem exec_burn_chunks_counts (env : Nat → Nat → WriteResp) (R : Nat) :
    ∀ (cs : List (List Req)) (s : BurnExecState),
      (exec_burn_chunks env R cs s).report.successCount
        + (exec_burn_chunks env R cs s).report.failureCount
        = s.report.successCount + s.report.failureCount + (cs.map List.length).sum := by
  intro cs
  induction cs with
  | nil => intro s; simp [exec_burn_chunks]
  | cons b rest ih =>
    intro s
    simp only [exec_burn_chunks, List.map_cons, List.sum_cons]
    rw [ih, foldl_burn_counts]
    omega

theorem execute_burn_batch_counts (env : Nat → Nat → WriteResp)
    (requests : List Req) {batchSize : Nat} (maxRetries : Nat)
    (h : 0 < batchSize) :
    (execute_burn_batch env requests batchSize maxRetries).successCount
      + (execute_burn_batch env requests batchSize maxRetries).failureCount
      = requests.length := by
  unfold execute_burn_batch
  rw [exec_burn_chunks_counts]
  have : ((chunkList batchSize requests).map List.length).sum
      = (chunkList batchSize requests).flatten.length := (List.length_flatten _).symm
  rw [this, chunkList_flatten h]
  simp [emptyBurnReport]

theorem process_sim_mint_counts (pc : Bool) (env : Nat → SimResp)
    (acc : SimReport × Nat) (q : Req) :
    (process_sim_mint pc env acc q).1.successCount
      + (process_sim_mint pc env acc q).1.failureCount
      = acc.1.successCount + acc.1.failureCount + 1 := by
  unfold process_sim_mint
  cases pc with
  | false => simp; omega
  | true => cases h : env acc.2 <;> simp [h] <;> omega

theorem simulate_mint_batch_counts (pc : Bool) (env : Nat → SimResp)
    (requests : List Req) :
    (simulate_mint_batch pc env requests).successCount
      + (simulate_mint_batch pc env requests).failureCount
      = requests.length := by
  unfold simulate_mint_batch
  suffices h : ∀ (rs : List Req) (acc : SimReport × Nat),
      (rs.foldl (process_sim_mint pc env) acc).1.successCount
        + (rs.foldl (process_sim_mint pc env) acc).1.failureCount
        = acc.1.successCount + acc.1.failureCount + rs.length by
    rw [h]; simp
  intro rs
  induction rs with
  | nil => intro acc; simp
  | cons q rs ih =>
    intro acc
    simp only [List.foldl_cons, List.length_cons]
    rw [ih, process_sim_mint_counts]
    omega

theorem mint_retry_loop_exn (resp : Nat → WriteResp) (msg : Nat → String)
    (hresp : ∀ a, resp a = .exn (msg a)) :
    ∀ (remaining attempt : Nat) (lastError : Option String) (sleeps : List Nat),
      mint_retry_loop resp attempt remaining lastError sleeps =
        ⟨none,
          (match remaining with
            | 0 => lastError
            | _ + 1 => some (msg (attempt + remaining - 1))),
          sleeps ++ (List.range remaining).map (fun i => 2 ^ (attempt + i))⟩ := by
  intro remaining
  induction remaining with
  | zero =>
    intro attempt lastError sleeps
    simp [mint_retry_loop]
  | succ r ih =>
    intro attempt lastError sleeps
    simp only [mint_retry_loop, hresp]
    rw [ih]
    have hmap : (List.range (r + 1)).map (fun i => 2 ^ (attempt + i))
        = 2 ^ attempt :: (List.range r).map (fun i => 2 ^ (attempt + 1 + i)) := by
      rw [List.range_succ_eq_map, List.map_cons, List.map_map]
      simp only [Nat.add_zero]
      congr 1
      apply List.map_congr_left
      intro i _
      simp only [Function.comp_apply]
      congr 1
      omega
    simp only [RetryOutcome.mk.injEq, hmap]
    refine ⟨trivial, ?_, by simp⟩
    cases r with
    | zero => simp
    | succ k =>
      simp only
      have heq : attempt + 1 + (k + 1) - 1 = attempt + (k + 1 + 1) - 1 := by omega
      rw [heq]

theorem mint_retry_loop_receiptFailed (resp : Nat → WriteResp)
    (hresp : ∀ a, resp a = .receiptFailed) :
    ∀ (remaining attempt : Nat) (lastError : Option String) (sleeps : List Nat),
      mint_retry_loop resp attempt remaining lastError sleeps =
        ⟨none,
          (match remaining with
            | 0 => lastError
            | _ + 1 => some "Transaction failed on-chain"),
          sleeps⟩ := by
  intro remaining
  induction remaining with
  | zero =>
    intro attempt lastError sleeps
    simp [mint_retry_loop]
  | succ r ih =>
    intro attempt lastError sleeps
    simp only [mint_retry_loop, hresp]
    rw [ih]
    cases r <;> simp

/-- With a positive batch size, a one-element request list forms a single
one-element batch. -/
theorem chunkList_singleton {α : Type} {n : Nat} (hn : 0 < n) (x : α) :
    chunkList n [x] = [[x]] := by
  unfold chunkList chunkGo
  rw [if_neg (Nat.pos_iff_ne_zero.mp hn)]
  simp only [List.length_singleton]
  rw [List.take_of_length_le (by simpa using hn), List.drop_eq_nil_of_le (by simpa using hn)]
  rfl

/-! ### C4 -/

/-- C4: for every batch execution (mint and burn) and every dry-run
simulation, `success_count + failure_count` equals the number of submitted
requests — each request reaches exactly one terminal outcome. -/
theorem C4_counts_partition (env env' : Nat → Nat → WriteResp) (pc : Bool)
    (simEnv : Nat → SimResp) (requests : List Req) (batchSize maxRetries : Nat)
    (h : 0 < batchSize) :
    (execute_mint_batch env requests batchSize maxRetries).successCount
        + (execute_mint_batch env requests batchSize maxRetries).failureCount
      = requests.length
    ∧ (execute_burn_batch env' requests batchSize maxRetries).successCount
        + (execute_burn_batch env' requests batchSize maxRetries).failureCount
      = requests.length
    ∧ (simulate_mint_batch pc simEnv requests).successCount
        + (simulate_mint_batch pc simEnv requests).failureCount
      = requests.length :=
  ⟨execute_mint_batch_counts env requests maxRetries h,
    execute_burn_batch_counts env' requests maxRetries h,
    simulate_mint_batch_counts pc simEnv requests⟩

/-- Witness for C4 at a concrete 3-request batch with batch size 2, a mint
chain that fails transiently for the middle request, an always-failing burn
chain, and a successful simulation. -/
theorem C4_witness :
    (execute_mint_batch
          (fun i _ => if i = 1 then .exn "timeout" else .receiptSuccess "0xh" 21000)
          [qSmall, qAlt, qGood] 2 3).successCount
        + (execute_mint_batch
          (fun i _ => if i = 1 then .exn "timeout" else .receiptSuccess "0xh" 21000)
          [qSmall, qAlt, qGood] 2 3).failureCount = 3
    ∧ (execute_burn_batch (fun _ _ => .exn "boom") [qSmall, qAlt, qGood] 2 3).successCount
        + (execute_burn_batch (fun _ _ => .exn "boom") [qSmall, qAlt, qGood] 2 3).failureCount
      = 3
    ∧ (simulate_mint_batch true simOk [qSmall, qAlt, qGood]).successCount
        + (simulate_mint_batch true simOk [qSmall, qAlt, qGood]).failureCount = 3 :=
  C4_counts_partition
    (fun i _ => if i = 1 then .exn "timeout" else .receiptSuccess "0xh" 21000)
    (fun _ _ => .exn "boom") true simOk [qSmall, qAlt, qGood] 2 3 (by decide)

/-! ### C5 -/

/-- C5 counterexample: with `max_retries = 2` and a chain returning a
non-success receipt on every attempt, both attempts fail (the error entry
records `attempts = 2` and the receipt-failure message) yet the executor
performs no backoff sleep at all — refuting the claim that a non-success
receipt also triggers the `2 ^ attempt` wait. -/
theorem C5_counterexample :
    (execute_mint_batch (fun _ _ => .receiptFailed) [qSmall] 50 2).sleeps = []
    ∧ (execute_mint_batch (fun _ _ => .receiptFailed) [qSmall] 50 2).errors
      = [⟨qSmall.recipient, qSmall.amount, some "Transaction failed on-chain", 2⟩] := by
  decide

/-- C5 (amended): the `2 ^ attempt` backoff wait happens only when the
write raises a transient exception; a non-success receipt retries
immediately with no wait.  A request that raises on every attempt fails
after exactly `max_retries` attempts with the sleep sequence
`2^0, 2^1, ..., 2^(R-1)` (the final sleep runs after the last attempt) and
its error record carries `attempts = max_retries`. -/
theorem C5_backoff_on_exception_only :
    (∀ (resp : Nat → WriteResp) (msg : Nat → String), (∀ a, resp a = .exn (msg a)) →
      ∀ R, mint_retry_loop resp 0 R none [] =
        ⟨none,
          (match R with | 0 => none | _ + 1 => some (msg (R - 1))),
          (List.range R).map (fun i => 2 ^ i)⟩)
    ∧ (∀ (resp : Nat → WriteResp), (∀ a, resp a = .receiptFailed) →
      ∀ R, mint_retry_loop resp 0 R none [] =
        ⟨none,
          (match R with | 0 => none | _ + 1 => some "Transaction failed on-chain"),
          []⟩)
    ∧ (∀ (env : Nat → Nat → WriteResp) (msg : Nat → String) (q : Req) (bs R : Nat),
        0 < bs → (∀ a, env 0 a = .exn (msg a)) →
        execute_mint_batch env [q] bs (R + 1) =
          ⟨0, 1, 0, 0, [],
            [⟨q.recipient, q.amount, some (msg R), R + 1⟩],
            (List.range (R + 1)).map (fun i => 2 ^ i)⟩) := by
  refine ⟨?_, ?_, ?_⟩
  · intro resp msg hresp R
    rw [mint_retry_loop_exn resp msg hresp]
    simp only [Nat.zero_add, List.nil_append]
  · intro resp hresp R
    rw [mint_retry_loop_receiptFailed resp hresp]
  · intro env msg q bs R hbs henv
    unfold execute_mint_batch
    rw [chunkList_singleton hbs]
    simp only [exec_mint_chunks, List.foldl_cons, List.foldl_nil, List.isEmpty_nil, if_true]
    unfold process_mint_req
    rw [mint_retry_loop_exn (env 0) msg henv]
    simp only [emptyMintReport]
    simp only [Nat.zero_add, List.nil_append, Nat.add_sub_cancel]

/-- Witness for C5 at `max_retries = 3`: an always-raising chain produces
the sleep trace `[1, 2, 4]` and an error record with `attempts = 3`; an
always-failed-receipt chain produces no sleeps. -/
theorem C5_witness :
    mint_retry_loop (fun _ => .exn "timeout") 0 3 none []
      = ⟨none, some "timeout", [1, 2, 4]⟩
    ∧ mint_retry_loop (fun _ => .receiptFailed) 0 3 none []
      = ⟨none, some "Transaction failed on-chain", []⟩
    ∧ execute_mint_batch (fun _ _ => .exn "timeout") [qSmall] 50 3
      = ⟨0, 1, 0, 0, [], [⟨qSmall.recipient, qSmall.amount, some "timeout", 3⟩], [1, 2, 4]⟩ := by
  have h := C5_backoff_on_exception_only
  refine ⟨?_, ?_, ?_⟩
  · rw [h.1 (fun _ => .exn "timeout") (fun _ => "timeout") (fun _ => rfl) 3]
    decide
  · rw [h.2.1 (fun _ => .receiptFailed) (fun _ => rfl) 3]
  · rw [h.2.2 (fun _ _ => .exn "timeout") (fun _ => "timeout") qSmall 50 2 (by decide)
        (fun _ => rfl)]
    decide

/-! ### C6 -/

theorem process_mint_req_allexn (env : Nat → Nat → WriteResp) (m : String)
    (henv : ∀ i a, env i a = .exn m) {R : Nat} (hR : 0 < R)
    (s : MintExecState) (q : Req) :
    (process_mint_req env R s q).report.successCount = s.report.successCount
    ∧ (process_mint_req env R s q).report.failureCount = s.report.failureCount + 1
    ∧ (process_mint_req env R s q).report.errors
      = s.report.errors ++ [⟨q.recipient, q.amount, some m, R⟩] := by
  obtain ⟨r, rfl⟩ : ∃ r, R = r + 1 := ⟨R - 1, by omega⟩
  unfold process_mint_req
  rw [mint_retry_loop_exn (env s.idx) (fun _ => m) (fun a => henv s.idx a)]
  simp

theorem foldl_mint_allexn (env : Nat → Nat → WriteResp) (m : String)
    (henv : ∀ i a, env i a = .exn m) {R : Nat} (hR : 0 < R) :
    ∀ (b : List Req) (s : MintExecState),
      (b.foldl (process_mint_req env R) s).report.successCount = s.report.successCount
      ∧ (b.foldl (process_mint_req env R) s).report.failureCount
        = s.report.failureCount + b.length
      ∧ (b.foldl (process_mint_req env R) s).report.errors
        = s.report.errors ++ b.map (fun q => ⟨q.recipient, q.amount, some m, R⟩) := by
  intro b
  induction b with
  | nil => intro s; simp
  | cons q b ih =>
    intro s
    simp only [List.foldl_cons, List.length_cons, List.map_cons]
    obtain ⟨h1, h2, h3⟩ := ih (process_mint_req env R s q)
    obtain ⟨g1, g2, g3⟩ := process_mint_req_allexn env m henv hR s q
    refine ⟨by rw [h1, g1], by rw [h2, g2]; omega, ?_⟩
    rw [h3, g3]
    simp

theorem exec_mint_chunks_allexn (env : Nat → Nat → WriteResp) (m : String)
    (henv : ∀ i a, env i a = .exn m) {R : Nat} (hR : 0 < R) :
    ∀ (cs : List (List Req)) (s : MintExecState),
      (exec_mint_chunks env R cs s).report.successCount = s.report.successCount
      ∧ (exec_mint_chunks env R cs s).report.failureCount
        = s.report.failureCount + cs.flatten.length
      ∧ (exec_mint_chunks env R cs s).report.errors
        = s.report.errors ++ cs.flatten.map (fun q => ⟨q.recipient, q.amount, some m, R⟩) := by
  intro cs
  induction cs with
  | nil => intro s; simp [exec_mint_chunks]
  | cons b rest ih =>
    intro s
    simp only [exec_mint_chunks, List.flatten_cons, List.length_append, List.map_append]
    obtain ⟨g1, g2, g3⟩ := foldl_mint_allexn env m henv hR b s
    by_cases h : rest.isEmpty
    · rw [if_pos h]
      obtain ⟨h1, h2, h3⟩ := ih (b.foldl (process_mint_req env R) s)
      refine ⟨by rw [h1, g1], by rw [h2, g2]; omega, ?_⟩
      rw [h3, g3]
      simp
    · rw [if_neg h]
      set s' := b.foldl (process_mint_req env R) s with hs'
      obtain ⟨h1, h2, h3⟩ :=
        ih { s' with report := { s'.report with sleeps := s'.report.sleeps ++ [1] } }
      refine ⟨by rw [h1]; simp [g1], by rw [h2]; simp [g2]; omega, ?_⟩
      rw [h3]
      simp only
      rw [g3]
      simp

/-- C6 counterexample: with no policy contract configured (a
configuration/fatal error), a 2-request mint batch is NOT aborted: the
`ValueError` raised inside `api.mint` is caught by the per-request handler,
retried with full backoff (`[1, 2, 4]` twice), and recorded as two
per-request failures while the run returns a normal report. -/
theorem C6_counterexample :
    execute_mint_batch (api_mint cfgNoPolicy chainOk) [qSmall, qAlt] 50 3
      = ⟨0, 2, 0, 0, [],
          [⟨qSmall.recipient, 5, some "Policy contract not configured", 3⟩,
            ⟨qAlt.recipient, 5, some "Policy contract not configured", 3⟩],
          [1, 2, 4, 1, 2, 4]⟩ := by
  decide

/-- C6 (amended): a configuration error (policy contract not configured)
raises on every attempt of every request; the executor retries it like any
transient error and then records it as a per-request failure with
`attempts = max_retries`, continuing through the whole batch instead of
aborting — every request ends as a failure carrying that message. -/
theorem C6_config_error_retried_per_request (cfg : ApiConfig)
    (chain : Nat → Nat → WriteResp) (requests : List Req) (batchSize R : Nat)
    (hp : cfg.policyConfigured = false) (hbs : 0 < batchSize) (hR : 0 < R) :
    (execute_mint_batch (api_mint cfg chain) requests batchSize R).successCount = 0
    ∧ (execute_mint_batch (api_mint cfg chain) requests batchSize R).failureCount
      = requests.length
    ∧ (execute_mint_batch (api_mint cfg chain) requests batchSize R).errors
      = requests.map
          (fun q => ⟨q.recipient, q.amount, some "Policy contract not configured", R⟩) := by
  have henv : ∀ i a, api_mint cfg chain i a = .exn "Policy contract not configured" := by
    intro i a
    unfold api_mint
    rw [hp]
    rfl
  unfold execute_mint_batch
  obtain ⟨h1, h2, h3⟩ :=
    exec_mint_chunks_allexn (api_mint cfg chain)
      "Policy contract not configured" henv hR (chunkList batchSize requests)
      ⟨emptyMintReport, 0⟩
  rw [chunkList_flatten hbs] at h2 h3
  refine ⟨by rw [h1]; rfl, by rw [h2]; simp [emptyMintReport],
    by rw [h3]; simp [emptyMintReport]⟩

/-- Witness for C6 at a concrete 2-request batch with the policy contract
missing: zero successes, two failures, both errors carrying the
configuration message and `attempts = 3`. -/
theorem C6_witness :
    (execute_mint_batch (api_mint cfgNoPolicy chainOk) [qGood, qAlt] 50 3).successCount = 0
    ∧ (execute_mint_batch (api_mint cfgNoPolicy chainOk) [qGood, qAlt] 50 3).failureCount = 2
    ∧ (execute_mint_batch (api_mint cfgNoPolicy chainOk) [qGood, qAlt] 50 3).errors
      = [⟨qGood.recipient, qGood.amount, some "Policy contract not configured", 3⟩,
          ⟨qAlt.recipient, qAlt.amount, some "Policy contract not configured", 3⟩] := by
  obtain ⟨h1, h2, h3⟩ :=
    C6_config_error_retried_per_request cfgNoPolicy chainOk [qGood, qAlt] 50 3
      rfl (by decide) (by decide)
  exact ⟨h1, h2, by rw [h3]; rfl⟩

/-! ### C9 -/

theorem process_mint_req_errors_sub (env : Nat → Nat → WriteResp) (R : Nat)
    (s : MintExecState) (q : Req) :
    ∀ e ∈ (process_mint_req env R s q).report.errors,
      e ∈ s.report.errors
      ∨ (e.recipient = q.recipient ∧ e.amount = q.amount ∧ e.attempts = R) := by
  intro e he
  unfold process_mint_req at he
  cases h : (mint_retry_loop (env s.idx) 0 R none []).success with
  | none =>
    simp only [h, List.mem_append, List.mem_singleton] at he
    cases he with
    | inl h' => exact Or.inl h'
    | inr h' => right; rw [h']; exact ⟨rfl, rfl, rfl⟩
  | some p =>
    simp only [h] at he
    exact Or.inl he

theorem foldl_mint_errors_sub (env : Nat → Nat → WriteResp) (R : Nat)
    (reqs : List Req) :
    ∀ (b : List Req) (s : MintExecState), (∀ q ∈ b, q ∈ reqs) →
      ∀ e ∈ (b.foldl (process_mint_req env R) s).report.errors,
        e ∈ s.report.errors
        ∨ ∃ q ∈ reqs, e.recipient = q.recipient ∧ e.amount = q.amount ∧ e.attempts = R := by
  intro b
  induction b with
  | nil => intro s _ e he; exact Or.inl he
  | cons q b ih =>
    intro s hb e he
    simp only [List.foldl_cons] at he
    cases ih (process_mint_req env R s q) (fun x hx => hb x (List.mem_cons_of_mem q hx)) e he with
    | inl h' =>
      cases process_mint_req_errors_sub env R s q e h' with
      | inl h'' => exact Or.inl h''
      | inr h'' => exact Or.inr ⟨q, hb q (List.mem_cons_self _ _), h''⟩
    | inr h' => exact Or.inr h'

theorem exec_mint_chunks_errors_sub (env : Nat → Nat → WriteResp) (R : Nat)
    (reqs : List Req) :
    ∀ (cs : List (List Req)) (s : MintExecState), (∀ b ∈ cs, ∀ q ∈ b, q ∈ reqs) →
      ∀ e ∈ (exec_mint_chunks env R cs s).report.errors,
        e ∈ s.report.errors
        ∨ ∃ q ∈ reqs, e.recipient = q.recipient ∧ e.amount = q.amount ∧ e.attempts = R := by
  intro cs
  induction cs with
  | nil => intro s _ e he; exact Or.inl he
  | cons b rest ih =>
    intro s hcs e he
    simp only [exec_mint_chunks] at he
    by_cases h : rest.isEmpty
    · rw [if_pos h] at he
      cases ih _ (fun c hc => hcs c (List.mem_cons_of_mem b hc)) e he with
      | inl h' =>
        exact foldl_mint_errors_sub env R reqs b s (hcs b (List.mem_cons_self _ _)) e h'
      | inr h' => exact Or.inr h'
    · rw [if_neg h] at he
      cases ih _ (fun c hc => hcs c (List.mem_cons_of_mem b hc)) e he with
      | inl h' =>
        simp only at h'
        exact foldl_mint_errors_sub env R reqs b s (hcs b (List.mem_cons_self _ _)) e h'
      | inr h' => exact Or.inr h'

theorem process_burn_req_errors_sub (env : Nat → Nat → WriteResp) (R : Nat)
    (s : BurnExecState) (q : Req) :
    ∀ e ∈ (process_burn_req env R s q).report.errors,
      e ∈ s.report.errors ∨ e.amount = q.amount := by
  intro e he
  unfold process_burn_req at he
  cases h : (burn_retry_loop (env s.idx) 0 R none []).success with
  | none =>
    simp only [h, List.mem_append, List.mem_singleton] at he
    cases he with
    | inl h' => exact Or.inl h'
    | inr h' => right; rw [h']
  | some p =>
    simp only [h] at he
    exact Or.inl he

theorem foldl_burn_errors_sub (env : Nat → Nat → WriteResp) (R : Nat)
    (reqs : List Req) :
    ∀ (b : List Req) (s : BurnExecState), (∀ q ∈ b, q ∈ reqs) →
      ∀ e ∈ (b.foldl (process_burn_req env R) s).report.errors,
        e ∈ s.report.errors ∨ ∃ q ∈ reqs, e.amount = q.amount := by
  intro b
  induction b with
  | nil => intro s _ e he; exact Or.inl he
  | cons q b ih =>
    intro s hb e he
    simp only [List.foldl_cons] at he
    cases ih (process_burn_req env R s q) (fun x hx => hb x (List.mem_cons_of_mem q hx)) e he with
    | inl h' =>
      cases process_burn_req_errors_sub env R s q e h' with
      | inl h'' => exact Or.inl h''
      | inr h'' => exact Or.inr ⟨q, hb q (List.mem_cons_self _ _), h''⟩
    | inr h' => exact Or.inr h'

theorem exec_burn_chunks_errors_sub (env : Nat → Nat → WriteResp) (R : Nat)
    (reqs : List Req) :
    ∀ (cs : List (List Req)) (s : BurnExecState), (∀ b ∈ cs, ∀ q ∈ b, q ∈ reqs) →
      ∀ e ∈ (exec_burn_chunks env R cs s).report.errors,
        e ∈ s.report.errors ∨ ∃ q ∈ reqs, e.amount = q.amount := by
  intro cs
  induction cs with
  | nil => intro s _ e he; exact Or.inl he
  | cons b rest ih =>
    intro s hcs e he
    simp only [exec_burn_chunks] at he
    cases ih _ (fun c hc => hcs c (List.mem_cons_of_mem b hc)) e he with
    | inl h' =>
      exact foldl_burn_errors_sub env R reqs b s (hcs b (List.mem_cons_self _ _)) e h'
    | inr h' => exact Or.inr h'

theorem chunkList_mem_sub {α : Type} {n : Nat} (hn : 0 < n) (l : List α) :
    ∀ b ∈ chunkList n l, ∀ q ∈ b, q ∈ l := by
  intro b hb q hq
  rw [← chunkList_flatten hn l]
  exact List.mem_flatten.mpr ⟨b, hb, hq⟩

/-- C9 counterexample: error entries carry no row index — two distinct
failing rows that happen to hold the same data produce literally identical
entries, so the failed subset cannot be identified by row from the report;
and a burn error entry records only the amount and last raised error
(no holder address, no attempt count), as shown by two runs over requests
differing only in the holder yielding identical error lists. -/
theorem C9_counterexample :
    (execute_mint_batch (fun _ _ => .exn "timeout") [qSmall, qSmall] 50 2).errors.length = 2
    ∧ (execute_mint_batch (fun _ _ => .exn "timeout") [qSmall, qSmall] 50 2).errors.get? 0
      = (execute_mint_batch (fun _ _ => .exn "timeout") [qSmall, qSmall] 50 2).errors.get? 1
    ∧ (execute_burn_batch (fun _ _ => .exn "timeout") [qSmall] 50 2).errors
      = (execute_burn_batch (fun _ _ => .exn "timeout") [qAlt] 50 2).errors := by
  decide

/-- C9 (amended): a mint error entry carries the failing request's
recipient address, amount, last error and `attempts = max_retries`, but no
row index; a burn error entry carries only the amount (and last raised
error) of some failed request. -/
theorem C9_error_entry_contents (env env' : Nat → Nat → WriteResp)
    (requests : List Req) (batchSize R : Nat) (hbs : 0 < batchSize) :
    (∀ e ∈ (execute_mint_batch env requests batchSize R).errors,
      ∃ q ∈ requests, e.recipient = q.recipient ∧ e.amount = q.amount ∧ e.attempts = R)
    ∧ (∀ e ∈ (execute_burn_batch env' requests batchSize R).errors,
      ∃ q ∈ requests, e.amount = q.amount) := by
  constructor
  · intro e he
    unfold execute_mint_batch at he
    cases exec_mint_chunks_errors_sub env R requests (chunkList batchSize requests)
        ⟨emptyMintReport, 0⟩ (chunkList_mem_sub hbs requests) e he with
    | inl h' => simp [emptyMintReport] at h'
    | inr h' => exact h'
  · intro e he
    unfold execute_burn_batch at he
    cases exec_burn_chunks_errors_sub env' R requests (chunkList batchSize requests)
        ⟨emptyBurnReport, 0⟩ (chunkList_mem_sub hbs requests) e he with
    | inl h' => simp [emptyBurnReport] at h'
    | inr h' => exact h'

/-- Witness for C9 at a concrete always-failing 2-request batch: the first
error entry's data comes from one of the submitted requests with
`attempts = 3`. -/
theorem C9_witness :
    ∃ q ∈ [qGood, qAlt],
      (⟨qGood.recipient, qGood.amount, some "down", 3⟩ : MintErr).recipient = q.recipient
      ∧ (⟨qGood.recipient, qGood.amount, some "down", 3⟩ : MintErr).amount = q.amount
      ∧ (⟨qGood.recipient, qGood.amount, some "down", 3⟩ : MintErr).attempts = 3 :=
  (C9_error_entry_contents (fun _ _ => .exn "down") (fun _ _ => .exn "down")
      [qGood, qAlt] 50 3 (by decide)).1
    ⟨qGood.recipient, qGood.amount, some "down", 3⟩ (by decide)

/-! ### Validator characterization lemmas -/

/-- The mint row pass counts exactly the rows with a present recipient and
a positive amount (address well-formedness does not matter). -/
theorem mint_row_pass_total :
    ∀ (rs : List Req) (i : Nat),
      (mint_row_pass rs i).2
        = ((rs.filter (fun r => !decide (r.recipient = "") && decide (0 < r.amount))).map
            (fun r => r.amount)).sum := by
  intro rs
  induction rs with
  | nil => intro i; simp [mint_row_pass]
  | cons r rs ih =>
    intro i
    have ih' := ih (i + 1)
    rcases hp : mint_row_pass rs (i + 1) with ⟨es, t⟩
    rw [hp] at ih'
    simp only at ih'
    by_cases h1 : r.recipient = ""
    · simp [mint_row_pass, hp, h1, ih']
    · by_cases h2 : r.amount ≤ 0
      · have h3 : ¬ (0 : Int) < r.amount := by omega
        simp [mint_row_pass, hp, h1, h2, h3, ih']
      · have h3 : (0 : Int) < r.amount := by omega
        simp [mint_row_pass, hp, h1, h2, h3, ih']
        omega

/-- The burn row pass counts exactly the rows with a present holder and a
positive amount (address format, balance result and balance-lookup failure
do not matter). -/
theorem burn_row_pass_total (l : Ledger) :
    ∀ (rs : List Req) (i : Nat),
      (burn_row_pass l rs i).2.2
        = ((rs.filter (fun r => !decide (holderOf r = "") && decide (0 < r.amount))).map
            (fun r => r.amount)).sum := by
  intro rs
  induction rs with
  | nil => intro i; simp [burn_row_pass]
  | cons r rs ih =>
    intro i
    have ih' := ih (i + 1)
    rcases hp : burn_row_pass l rs (i + 1) with ⟨es, ws, t⟩
    rw [hp] at ih'
    simp only at ih'
    by_cases h1 : holderOf r = ""
    · simp [burn_row_pass, hp, h1, ih']
    · by_cases h2 : r.amount ≤ 0
      · have h3 : ¬ (0 : Int) < r.amount := by omega
        simp [burn_row_pass, hp, h1, h2, h3, ih']
      · have h3 : (0 : Int) < r.amount := by omega
        cases hb : l.balance (holderOf r) with
        | some b =>
          by_cases h4 : b < r.amount
          · simp [burn_row_pass, hp, h1, h2, h3, hb, h4, ih']
            omega
          · simp [burn_row_pass, hp, h1, h2, h3, hb, h4, ih']
            omega
        | none =>
          simp [burn_row_pass, hp, h1, h2, h3, hb, ih']
          omega

/-- Every error emitted by the mint row pass is a per-row error: the
aggregate constructors never appear there. -/
theorem mint_row_pass_errors_shape :
    ∀ (rs : List Req) (i : Nat) (e : VError), e ∈ (mint_row_pass rs i).1 →
      (∃ j, e = .missingRecipient j)
      ∨ (∃ j a, e = .invalidAddress j a)
      ∨ (∃ j a, e = .invalidAmount j a) := by
  intro rs
  induction rs with
  | nil => intro i e he; simp [mint_row_pass] at he
  | cons r rs ih =>
    intro i e he
    rcases hp : mint_row_pass rs (i + 1) with ⟨es, t⟩
    have ihs := fun e h => ih (i + 1) e (by rw [hp]; exact h)
    by_cases h1 : r.recipient = ""
    · simp only [mint_row_pass, hp, h1, if_pos, List.mem_cons] at he
      cases he with
      | inl h' => exact Or.inl ⟨i, h'⟩
      | inr h' => exact ihs e h'
    · by_cases h2 : r.amount ≤ 0
      · by_cases h3 : is_valid_address r.recipient
        · simp only [mint_row_pass, hp, if_neg h1, if_pos h2, if_pos h3, List.nil_append,
            List.mem_cons] at he
          cases he with
          | inl h' => exact Or.inr (Or.inr ⟨i, r.amount, h'⟩)
          | inr h' => exact ihs e h'
        · simp only [mint_row_pass, hp, if_neg h1, if_pos h2, if_neg h3, List.cons_append,
            List.nil_append, List.mem_cons] at he
          rcases he with h' | h' | h'
          · exact Or.inr (Or.inl ⟨i, r.recipient, h'⟩)
          · exact Or.inr (Or.inr ⟨i, r.amount, h'⟩)
          · exact ihs e h'
      · by_cases h3 : is_valid_address r.recipient
        · simp only [mint_row_pass, hp, if_neg h1, if_neg h2, if_pos h3,
            List.nil_append] at he
          exact ihs e he
        · simp only [mint_row_pass, hp, if_neg h1, if_neg h2, if_neg h3, List.cons_append,
            List.nil_append, List.mem_cons] at he
          cases he with
          | inl h' => exact Or.inr (Or.inl ⟨i, r.recipient, h'⟩)
          | inr h' => exact ihs e h'

/-- A row with a present recipient and a non-positive amount contributes
`invalidAmount` at its row index to the mint row errors. -/
theorem mint_row_pass_invalidAmount :
    ∀ (rs : List Req) (i0 i : Nat) (r : Req), rs.get? i = some r →
      r.recipient ≠ "" → r.amount ≤ 0 →
      VError.invalidAmount (i0 + i) r.amount ∈ (mint_row_pass rs i0).1 := by
  intro rs
  induction rs with
  | nil => intro i0 i r hr; simp at hr
  | cons x rs ih =>
    intro i0 i r hr hrec hamt
    rcases hp : mint_row_pass rs (i0 + 1) with ⟨es, t⟩
    cases i with
    | zero =>
      simp only [List.get?] at hr
      injection hr with hr
      rw [hr]
      simp only [mint_row_pass, hp, if_neg hrec, if_pos hamt, Nat.add_zero]
      by_cases h3 : is_valid_address r.recipient
      · simp [h3]
      · simp [h3]
    | succ j =>
      simp only [List.get?] at hr
      have hmem := ih (i0 + 1) j r hr hrec hamt
      rw [hp] at hmem
      have harith : i0 + 1 + j = i0 + (j + 1) := by omega
      rw [harith] at hmem
      by_cases h1 : x.recipient = ""
      · simp only [mint_row_pass, hp, if_pos h1, List.mem_cons]
        exact Or.inr hmem
      · by_cases h2 : x.amount ≤ 0
        · simp only [mint_row_pass, hp, if_neg h1, if_pos h2, List.mem_append, List.mem_cons]
          exact Or.inr (Or.inr hmem)
        · simp only [mint_row_pass, hp, if_neg h1, if_neg h2, List.mem_append]
          exact Or.inr hmem

/-- Sum over the fully syntactically valid rows (present, well-formed
address, positive amount), the reading of the spec's "valid rows". -/
def fully_valid_mint_sum (rs : List Req) : Int :=
  ((rs.filter (fun r =>
      !decide (r.recipient = "") && is_valid_address r.recipient
        && decide (0 < r.amount))).map (fun r => r.amount)).sum

/-- The sum over fully valid rows is bounded by the total the validator
actually accumulates (which also counts rows with malformed addresses). -/
theorem fully_valid_mint_sum_le (rs : List Req) :
    fully_valid_mint_sum rs ≤ (mint_row_pass rs 0).2 := by
  rw [mint_row_pass_total rs 0]
  unfold fully_valid_mint_sum
  induction rs with
  | nil => simp
  | cons r rs ih =>
    by_cases h1 : r.recipient = "" <;>
      by_cases h2 : (0 : Int) < r.amount <;>
        by_cases h3 : is_valid_address r.recipient <;>
          simp only [List.filter_cons, h1, h2, h3, decide_eq_true_eq, Bool.and_eq_true,
            Bool.not_eq_true', decide_eq_false_iff_not, List.map_cons, List.sum_cons] <;>
          simp [h1, h2, h3] <;> omega

/-- Unfolded form of `validate_mint_batch` in terms of its three passes. -/
theorem validate_mint_batch_eq (l : Ledger) (reqs : List Req) :
    validate_mint_batch l reqs =
      { valid := ((mint_row_pass reqs 0).1
            ++ (mint_backing_check l (mint_row_pass reqs 0).2).1
            ++ (mint_rate_check l (mint_row_pass reqs 0).2).1).isEmpty
        totalRequests := reqs.length
        totalAmount := (mint_row_pass reqs 0).2
        errors := (mint_row_pass reqs 0).1
          ++ (mint_backing_check l (mint_row_pass reqs 0).2).1
          ++ (mint_rate_check l (mint_row_pass reqs 0).2).1
        warnings := (mint_backing_check l (mint_row_pass reqs 0).2).2
          ++ (mint_rate_check l (mint_row_pass reqs 0).2).2 } := by
  unfold validate_mint_batch
  rcases h1 : mint_row_pass reqs 0 with ⟨rowErrs, t⟩
  rcases h2 : mint_backing_check l t with ⟨be, bw⟩
  rcases h3 : mint_rate_check l t with ⟨re, rw2⟩
  simp [h1, h2, h3]

/-- Unfolded form of `validate_burn_batch` in terms of its row pass. -/
theorem validate_burn_batch_eq (l : Ledger) (reqs : List Req) :
    validate_burn_batch l reqs =
      { valid := (burn_row_pass l reqs 0).1.isEmpty
        totalRequests := reqs.length
        totalAmount := (burn_row_pass l reqs 0).2.2
        errors := (burn_row_pass l reqs 0).1
        warnings := (burn_row_pass l reqs 0).2.1 } := by
  unfold validate_burn_batch
  rcases h1 : burn_row_pass l reqs 0 with ⟨errs, ws, t⟩
  simp [h1]

/-- The rate-limit check never emits a backing error. -/
theorem mint_rate_check_no_backing (l : Ledger) (t : Int) :
    ∀ d s b tt, VError.exceedsBacking d s b tt ∉ (mint_rate_check l t).1 := by
  intro d s b tt hmem
  unfold mint_rate_check at hmem
  rcases hp : l.policy with _ | (_ | ⟨m, c⟩) <;> rw [hp] at hmem
  · simp at hmem
  · simp at hmem
  · simp only at hmem
    by_cases h : t > c - m
    · rw [if_pos h] at hmem
      simp only [List.mem_singleton] at hmem
      exact VError.noConfusion hmem
    · rw [if_neg h] at hmem
      simp at hmem

/-- The backing check never emits an epoch-capacity error. -/
theorem mint_backing_check_no_rate (l : Ledger) (t : Int) :
    ∀ rem tt, VError.exceedsEpochCapacity rem tt ∉ (mint_backing_check l t).1 := by
  intro rem tt hmem
  unfold mint_backing_check at hmem
  rcases hb : l.backing with _ | b <;> rw [hb] at hmem
  · simp at hmem
  · rcases hs : l.totalSupply with _ | s <;> rw [hs] at hmem
    · simp at hmem
    · simp only at hmem
      by_cases h : s + t > b
      · rw [if_pos h] at hmem
        simp only [List.mem_singleton] at hmem
        exact VError.noConfusion hmem
      · rw [if_neg h] at hmem
        simp at hmem

/-- The row pass never emits an aggregate error. -/
theorem mint_row_pass_no_aggregate (rs : List Req) (i : Nat) :
    (∀ d s b t, VError.exceedsBacking d s b t ∉ (mint_row_pass rs i).1)
    ∧ (∀ rem t, VError.exceedsEpochCapacity rem t ∉ (mint_row_pass rs i).1) := by
  constructor
  · intro d s b t hmem
    rcases mint_row_pass_errors_shape rs i _ hmem with ⟨j, hj⟩ | ⟨j, a, hj⟩ | ⟨j, a, hj⟩ <;>
      exact VError.noConfusion hj
  · intro rem t hmem
    rcases mint_row_pass_errors_shape rs i _ hmem with ⟨j, hj⟩ | ⟨j, a, hj⟩ | ⟨j, a, hj⟩ <;>
      exact VError.noConfusion hj

/-! ### CLI gate lemmas -/

theorem mint_batch_validation_gate (dryRun : Bool) (l : Ledger) (ie : InvariantEnv)
    (cfg : ApiConfig) (chain : Nat → Nat → WriteResp) (simEnv : Nat → SimResp)
    (reqs : List Req) (bs R : Nat)
    (hv : (validate_mint_batch l reqs).errors ≠ []) :
    mint_batch false dryRun l ie cfg chain simEnv reqs bs R
      = ⟨validate_mint_batch l reqs, none, none, 1⟩ := by
  have hc : (!(validate_mint_batch l reqs).errors.isEmpty && !false) = true := by
    simp [List.isEmpty_eq_false.mpr hv]
  unfold mint_batch
  rw [if_pos hc]

theorem mint_batch_invariant_gate (dryRun : Bool) (l : Ledger) (ie : InvariantEnv)
    (cfg : ApiConfig) (chain : Nat → Nat → WriteResp) (simEnv : Nat → SimResp)
    (reqs : List Req) (bs R : Nat)
    (hv : (validate_mint_batch l reqs).errors = [])
    (hi : (check_invariants ie).allValid = false) :
    mint_batch false dryRun l ie cfg chain simEnv reqs bs R
      = ⟨validate_mint_batch l reqs, some (check_invariants ie), none, 1⟩ := by
  unfold mint_batch
  rw [if_neg (by simp [hv]), if_pos (by simp [hi])]

theorem mint_batch_force_executes (dryRun : Bool) (l : Ledger) (ie : InvariantEnv)
    (cfg : ApiConfig) (chain : Nat → Nat → WriteResp) (simEnv : Nat → SimResp)
    (reqs : List Req) (bs R : Nat) :
    (mint_batch true dryRun l ie cfg chain simEnv reqs bs R).report
      = some (if dryRun then .dry (simulate_mint_batch cfg.policyConfigured simEnv reqs)
          else .real (execute_mint_batch (api_mint cfg chain) reqs bs R)) := by
  unfold mint_batch
  rw [if_neg (by simp), if_neg (by simp)]

/-- Over-balance burn request: holder `goodAddr` has 50 in
`balanceLedger` but asks to burn 100. -/
def qBurn : Req := ⟨goodAddr, "", 100⟩

/-- Mint row with a malformed (present but not well-formed) address. -/
def qBad10 : Req := ⟨"0xBAD", "", 10⟩

/-- Ledger whose policy handle exists but whose epoch reads raise. -/
def policyDownLedger : Ledger := ⟨some 2000000, some 0, fun _ => some 0, some none⟩

/-! ### C1 -/

/-- C1 counterexample: with `--force` and a violated solvency invariant,
execution proceeds and the final report handed to the caller is literally
identical to the report of the same run under an all-healthy invariant
snapshot — the violated invariant names are printed to the console only
and are NOT recorded in the final report. -/
theorem C1_counterexample :
    (check_invariants invBad).allValid = false
    ∧ (check_invariants invGood).allValid = true
    ∧ (mint_batch true false okLedger invBad cfgOk chainOk simOk [qGood] 50 3).report ≠ none
    ∧ (mint_batch true false okLedger invBad cfgOk chainOk simOk [qGood] 50 3).report
      = (mint_batch true false okLedger invGood cfgOk chainOk simOk [qGood] 50 3).report := by
  decide

/-- C1 (amended): when `all_valid` is false a non-forced run refuses to
proceed (no report, exit code 1, no write submitted); a forced run
executes, but its final report is exactly the executor's output, which
contains no record of the violated invariants. -/
theorem C1_forced_report_omits_invariants (dryRun : Bool) (l : Ledger)
    (ie : InvariantEnv) (cfg : ApiConfig) (chain : Nat → Nat → WriteResp)
    (simEnv : Nat → SimResp) (reqs : List Req) (bs R : Nat)
    (hall : (check_invariants ie).allValid = false) :
    ((mint_batch false dryRun l ie cfg chain simEnv reqs bs R).report = none
      ∧ (mint_batch false dryRun l ie cfg chain simEnv reqs bs R).exitCode = 1)
    ∧ (mint_batch true false l ie cfg chain simEnv reqs bs R).report
      = some (.real (execute_mint_batch (api_mint cfg chain) reqs bs R)) := by
  constructor
  · by_cases hv : (validate_mint_batch l reqs).errors = []
    · rw [mint_batch_invariant_gate dryRun l ie cfg chain simEnv reqs bs R hv hall]
      exact ⟨rfl, rfl⟩
    · rw [mint_batch_validation_gate dryRun l ie cfg chain simEnv reqs bs R hv]
      exact ⟨rfl, rfl⟩
  · rw [mint_batch_force_executes false l ie cfg chain simEnv reqs bs R]
    simp

/-- Witness for C1 at a concrete solvency violation. -/
theorem C1_witness :
    ((mint_batch false false okLedger invBad cfgOk chainOk simOk [qGood] 50 3).report = none
      ∧ (mint_batch false false okLedger invBad cfgOk chainOk simOk [qGood] 50 3).exitCode = 1)
    ∧ (mint_batch true false okLedger invBad cfgOk chainOk simOk [qGood] 50 3).report
      = some (.real (execute_mint_batch (api_mint cfgOk chainOk) [qGood] 50 3)) :=
  C1_forced_report_omits_invariants false okLedger invBad cfgOk chainOk simOk
    [qGood] 50 3 (by decide)

/-! ### C2 -/

/-- C2 counterexample: `validate_burn_batch` flags the over-balance burn
(holder has 50, burn asks 100), yet the CLI burn path never calls the
validator or the invariant gate: the flagged request is submitted to the
ledger and succeeds. -/
theorem C2_counterexample :
    (validate_burn_batch balanceLedger [qBurn]).valid = false
    ∧ (validate_burn_batch balanceLedger [qBurn]).errors
      = [.insufficientBalance 0 goodAddr 50 100]
    ∧ (burn_batch false cfgOk chainOk simOk [qBurn] 50).1
      = .real ⟨1, 0, 100, 21000, [⟨100, "0xhash"⟩], [], []⟩ := by
  decide

/-- C2 (amended): only the mint path is gated — a non-forced mint run with
an invalid validation outcome submits nothing, while the burn path invokes
the executor directly with no validation or invariant check, so every burn
request (flagged or not) is processed by the executor. -/
theorem C2_gating_mint_only (dryRun : Bool) (l : Ledger) (ie : InvariantEnv)
    (cfg : ApiConfig) (chain : Nat → Nat → WriteResp) (simEnv : Nat → SimResp)
    (reqs : List Req) (bs R : Nat) (hbs : 0 < bs) :
    ((validate_mint_batch l reqs).valid = false →
      (mint_batch false dryRun l ie cfg chain simEnv reqs bs R).report = none)
    ∧ (burn_batch false cfg chain simEnv reqs bs).1
      = .real (execute_burn_batch (api_burn cfg chain) reqs bs 3)
    ∧ (execute_burn_batch (api_burn cfg chain) reqs bs 3).successCount
      + (execute_burn_batch (api_burn cfg chain) reqs bs 3).failureCount
      = reqs.length := by
  refine ⟨?_, rfl, execute_burn_batch_counts (api_burn cfg chain) reqs 3 hbs⟩
  intro hvalid
  have hv : (validate_mint_batch l reqs).errors ≠ [] := by
    intro hnil
    rw [validate_mint_batch_eq] at hvalid hnil
    simp only at hvalid hnil
    rw [hnil] at hvalid
    simp at hvalid
  rw [mint_batch_validation_gate dryRun l ie cfg chain simEnv reqs bs R hv]

/-- Witness for C2: an invalid mint batch is refused while a 1-request
burn batch is fully processed by the executor. -/
theorem C2_witness :
    (mint_batch false false okLedger invGood cfgOk chainOk simOk [qBad10] 50 3).report = none
    ∧ (burn_batch false cfgOk chainOk simOk [qBurn] 50).1
      = .real (execute_burn_batch (api_burn cfgOk chainOk) [qBurn] 50 3)
    ∧ (execute_burn_batch (api_burn cfgOk chainOk) [qBurn] 50 3).successCount
      + (execute_burn_batch (api_burn cfgOk chainOk) [qBurn] 50 3).failureCount = 1 := by
  obtain ⟨h1, h2, h3⟩ :=
    C2_gating_mint_only false okLedger invGood cfgOk chainOk simOk [qBurn] 50 3 (by decide)
  exact ⟨(C2_gating_mint_only false okLedger invGood cfgOk chainOk simOk [qBad10] 50 3
    (by decide)).1 (by decide), h2, h3⟩

/-! ### C3 -/

/-- C3: when the fully valid rows' total plus the current total supply
exceeds the current backing (and the backing/supply reads succeed), the
validator returns `valid = false` with a non-empty error list, and the
non-forced CLI run stops before the executor: no report is produced. -/
theorem C3_backing_exceeded_blocks (l : Ledger) (reqs : List Req) (s b : Int)
    (dryRun : Bool) (ie : InvariantEnv) (cfg : ApiConfig)
    (chain : Nat → Nat → WriteResp) (simEnv : Nat → SimResp) (bs R : Nat)
    (hs : l.totalSupply = some s) (hb : l.backing = some b)
    (hx : b < s + fully_valid_mint_sum reqs) :
    (validate_mint_batch l reqs).valid = false
    ∧ (validate_mint_batch l reqs).errors ≠ []
    ∧ (mint_batch false dryRun l ie cfg chain simEnv reqs bs R).report = none := by
  have hle := fully_valid_mint_sum_le reqs
  have hgt : s + (mint_row_pass reqs 0).2 > b := by omega
  have hback : mint_backing_check l (mint_row_pass reqs 0).2
      = ([.exceedsBacking (s + (mint_row_pass reqs 0).2 - b) s b (mint_row_pass reqs 0).2],
          []) := by
    unfold mint_backing_check
    rw [hb, hs]
    simp [hgt]
  have herr : (validate_mint_batch l reqs).errors ≠ [] := by
    rw [validate_mint_batch_eq]
    simp only [hback]
    simp
  refine ⟨?_, herr,
    by rw [mint_batch_validation_gate dryRun l ie cfg chain simEnv reqs bs R herr]⟩
  rw [validate_mint_batch_eq]
  simp only [hback]
  simp

/-- Witness for C3: one fully valid 1,000,000 mint against supply
1,500,000 and backing 2,000,000 (deficit 500,000). -/
theorem C3_witness :
    (validate_mint_batch ⟨some 2000000, some 1500000, fun _ => some 0, none⟩ [qGood]).valid
      = false
    ∧ (validate_mint_batch ⟨some 2000000, some 1500000, fun _ => some 0, none⟩ [qGood]).errors
      ≠ []
    ∧ (mint_batch false false ⟨some 2000000, some 1500000, fun _ => some 0, none⟩ invGood
        cfgOk chainOk simOk [qGood] 50 3).report = none :=
  C3_backing_exceeded_blocks ⟨some 2000000, some 1500000, fun _ => some 0, none⟩ [qGood]
    1500000 2000000 false invGood cfgOk chainOk simOk 50 3 rfl rfl (by decide)

/-- The backing check emits no warning other than the backing-lookup one. -/
theorem mint_backing_check_warnings (l : Ledger) (t : Int) :
    ∀ w ∈ (mint_backing_check l t).2, w = VWarning.backingLookupFailed := by
  intro w hw
  unfold mint_backing_check at hw
  rcases hb : l.backing with _ | b <;> rw [hb] at hw
  · simpa using hw
  · rcases hs : l.totalSupply with _ | s <;> rw [hs] at hw
    · simpa using hw
    · simp only at hw
      by_cases h : s + t > b
      · rw [if_pos h] at hw
        simp at hw
      · rw [if_neg h] at hw
        simp at hw

/-! ### C7 -/

/-- C7 counterexample: with the backing/supply reads raising (and no
policy handle), the solvency aggregate check is never evaluated, the
failure is downgraded to a warning, and the batch still comes back
`valid = true` — refuting "never for the aggregate checks". -/
theorem C7_counterexample :
    (validate_mint_batch downLedger [qGood]).valid = true
    ∧ (validate_mint_batch downLedger [qGood]).warnings = [.backingLookupFailed]
    ∧ (validate_mint_batch downLedger [qGood]).errors = [] := by
  decide

/-- C7 (amended): lookup failures during the solvency and epoch-capacity
aggregate checks are also downgraded to non-blocking warnings: the
corresponding aggregate error can never be emitted in that case, so the
batch can return `valid = true` with the aggregate checks unevaluated. -/
theorem C7_aggregate_checks_fail_open (l : Ledger) (reqs : List Req) :
    (l.backing = none →
      VWarning.backingLookupFailed ∈ (validate_mint_batch l reqs).warnings
      ∧ ∀ d s b t, VError.exceedsBacking d s b t ∉ (validate_mint_batch l reqs).errors)
    ∧ (l.policy = some none →
      VWarning.rateLimitLookupFailed ∈ (validate_mint_batch l reqs).warnings
      ∧ ∀ rem t, VError.exceedsEpochCapacity rem t ∉ (validate_mint_batch l reqs).errors) := by
  constructor
  · intro hb
    have hback : mint_backing_check l (mint_row_pass reqs 0).2
        = ([], [.backingLookupFailed]) := by
      unfold mint_backing_check
      rw [hb]
    constructor
    · rw [validate_mint_batch_eq]
      simp [hback]
    · intro d s b t hmem
      rw [validate_mint_batch_eq] at hmem
      simp only [hback, List.append_nil, List.nil_append, List.mem_append] at hmem
      cases hmem with
      | inl h' => exact (mint_row_pass_no_aggregate reqs 0).1 d s b t h'
      | inr h' => exact mint_rate_check_no_backing l (mint_row_pass reqs 0).2 d s b t h'
  · intro hp
    have hrate : mint_rate_check l (mint_row_pass reqs 0).2
        = ([], [.rateLimitLookupFailed]) := by
      unfold mint_rate_check
      rw [hp]
    constructor
    · rw [validate_mint_batch_eq]
      simp [hrate]
    · intro rem t hmem
      rw [validate_mint_batch_eq] at hmem
      simp only [hrate, List.append_nil, List.mem_append] at hmem
      cases hmem with
      | inl h' => exact (mint_row_pass_no_aggregate reqs 0).2 rem t h'
      | inr h' => exact mint_backing_check_no_rate l (mint_row_pass reqs 0).2 rem t h'

/-- Witness for C7 at concrete ledgers whose backing read raises
(`downLedger`) and whose epoch reads raise (`policyDownLedger`). -/
theorem C7_witness :
    VWarning.backingLookupFailed ∈ (validate_mint_batch downLedger [qGood]).warnings
    ∧ VWarning.rateLimitLookupFailed ∈ (validate_mint_batch policyDownLedger [qGood]).warnings
    ∧ VError.exceedsBacking 1 2 3 4 ∉ (validate_mint_batch downLedger [qGood]).errors
    ∧ VError.exceedsEpochCapacity 1 2 ∉ (validate_mint_batch policyDownLedger [qGood]).errors :=
  ⟨((C7_aggregate_checks_fail_open downLedger [qGood]).1 rfl).1,
    ((C7_aggregate_checks_fail_open policyDownLedger [qGood]).2 rfl).1,
    ((C7_aggregate_checks_fail_open downLedger [qGood]).1 rfl).2 1 2 3 4,
    ((C7_aggregate_checks_fail_open policyDownLedger [qGood]).2 rfl).2 1 2⟩

/-! ### C8 -/

/-- C8 counterexample: a present but malformed address (`"0xBAD"`) with a
positive amount contributes one error, yet its amount is still counted in
`total_amount` (10, not 0) — refuting "excluded from total_amount". -/
theorem C8_counterexample :
    (validate_mint_batch okLedger [qBad10]).errors = [.invalidAddress 0 "0xBAD"]
    ∧ (validate_mint_batch okLedger [qBad10]).totalAmount = 10 := by
  decide

/-- C8 (amended): `total_amount` is the sum of amounts over rows with a
present recipient (mint) / holder (burn) and a positive amount — address
well-formedness is NOT part of the criterion; a present-address row with a
non-positive amount contributes an `invalidAmount` error at its row index
and is excluded from the total. -/
theorem C8_total_amount_characterization (l : Ledger) (reqs : List Req) :
    (validate_mint_batch l reqs).totalAmount
      = ((reqs.filter (fun r => !decide (r.recipient = "") && decide (0 < r.amount))).map
          (fun r => r.amount)).sum
    ∧ (validate_burn_batch l reqs).totalAmount
      = ((reqs.filter (fun r => !decide (holderOf r = "") && decide (0 < r.amount))).map
          (fun r => r.amount)).sum
    ∧ (∀ i r, reqs.get? i = some r → r.recipient ≠ "" → r.amount ≤ 0 →
        VError.invalidAmount i r.amount ∈ (validate_mint_batch l reqs).errors) := by
  refine ⟨?_, ?_, ?_⟩
  · rw [validate_mint_batch_eq]
    exact mint_row_pass_total reqs 0
  · rw [validate_burn_batch_eq]
    exact burn_row_pass_total l reqs 0
  · intro i r hget hrec hamt
    have hmem := mint_row_pass_invalidAmount reqs 0 i r hget hrec hamt
    rw [Nat.zero_add] at hmem
    rw [validate_mint_batch_eq]
    simp only [List.mem_append]
    exact Or.inl (Or.inl hmem)

/-- Row with a negative amount used by the C8 witness. -/
def qNeg : Req := ⟨goodAddr, "", -5⟩

/-- Witness for C8: batch `[amount 5, amount -5]` totals 5 in both
validators and flags the `-5` row. -/
theorem C8_witness :
    (validate_mint_batch okLedger [qSmall, qNeg]).totalAmount = 5
    ∧ (validate_burn_batch okLedger [qSmall, qNeg]).totalAmount = 5
    ∧ VError.invalidAmount 1 (-5) ∈ (validate_mint_batch okLedger [qSmall, qNeg]).errors := by
  obtain ⟨h1, h2, h3⟩ := C8_total_amount_characterization okLedger [qSmall, qNeg]
  refine ⟨by rw [h1]; decide, by rw [h2]; decide, ?_⟩
  exact h3 1 qNeg rfl (by decide) (by decide)

/-! ### C10 -/

/-- C10: with no policy contract handle, the epoch-capacity check inside
`validate_mint_batch` is silently skipped (no error, no warning for it,
and a concrete batch comes back `valid = true`), and `check_invariants`
creates no `rate_limiting` entry, so `all_valid` folds only the remaining
invariants. -/
theorem C10_policy_absent_silently_skipped (l : Ledger) (reqs : List Req)
    (ie : InvariantEnv) (hl : l.policy = none) (hie : ie.policyReads = none) :
    (∀ rem t, VError.exceedsEpochCapacity rem t ∉ (validate_mint_batch l reqs).errors)
    ∧ VWarning.rateLimitLookupFailed ∉ (validate_mint_batch l reqs).warnings
    ∧ (check_invariants ie).rateLimiting = none
    ∧ (check_invariants ie).allValid
      = ((check_invariants ie).solvency.valid
          && (check_invariants ie).oracleFreshness.valid
          && (check_invariants ie).emergencyPause.all (fun x => x.valid))
    ∧ (validate_mint_batch okLedger [qGood]).valid = true
    ∧ okLedger.policy = none := by
  have hrate : mint_rate_check l (mint_row_pass reqs 0).2 = ([], []) := by
    unfold mint_rate_check
    rw [hl]
  refine ⟨?_, ?_, ?_, ?_, by decide, rfl⟩
  · intro rem t hmem
    rw [validate_mint_batch_eq] at hmem
    simp only [hrate, List.append_nil, List.mem_append] at hmem
    cases hmem with
    | inl h' => exact (mint_row_pass_no_aggregate reqs 0).2 rem t h'
    | inr h' => exact mint_backing_check_no_rate l (mint_row_pass reqs 0).2 rem t h'
  · intro hmem
    rw [validate_mint_batch_eq] at hmem
    simp only [hrate, List.append_nil] at hmem
    have := mint_backing_check_warnings l (mint_row_pass reqs 0).2 _ hmem
    exact VWarning.noConfusion this
  · simp [check_invariants, hie]
  · simp [check_invariants, hie, Bool.and_assoc]

/-- Witness for C10 at `downLedger` (no policy handle) and `invGood`
(no policy reads). -/
theorem C10_witness :
    VError.exceedsEpochCapacity 1 2 ∉ (validate_mint_batch downLedger [qGood]).errors
    ∧ VWarning.rateLimitLookupFailed ∉ (validate_mint_batch downLedger [qGood]).warnings
    ∧ (check_invariants invGood).rateLimiting = none
    ∧ (check_invariants invGood).allValid
      = ((check_invariants invGood).solvency.valid
          && (check_invariants invGood).oracleFreshness.valid
          && (check_invariants invGood).emergencyPause.all (fun x => x.valid))
    ∧ (validate_mint_batch okLedger [qGood]).valid = true
    ∧ okLedger.policy = none :=
  have h := C10_policy_absent_silently_skipped downLedger [qGood] invGood rfl rfl
  ⟨h.1 1 2, h.2.1, h.2.2.1, h.2.2.2.1, h.2.2.2.2.1, h.2.2.2.2.2⟩

end SecureMint
